import Mathlib

/-!
Verification of the multi-factor option-strategy decision engine.

The development shallowly embeds the indicator computation
(`calculate_technical_indicators` in `utils/etf_analysis_shared.py`), the
five-dimension signal scorer and strategy mapper (pages
`01_期权策略决策系统.py` and `期权策略决策系统.py`), the turtle breakout
detector (`05_海龟交易法则.py`) and the support/resistance level detector
(`calculate_support_resistance`).  Floats are idealised as rationals; a
pandas NaN cell is `none`, and comparisons against `none` are `false`,
matching IEEE comparisons with NaN.
-/

/-- A dataframe cell: `none` models NaN. -/
abbrev Cell := Option ℚ

/-- Comparison `a > b` with NaN semantics: any comparison involving NaN is false. -/
def cellGT : Cell → Cell → Bool
  | some a, some b => decide (b < a)
  | _, _ => false

/-- Comparison `a < b` with NaN semantics. -/
def cellLT : Cell → Cell → Bool
  | some a, some b => decide (a < b)
  | _, _ => false

/-- Comparison `a ≤ b` with NaN semantics. -/
def cellLE : Cell → Cell → Bool
  | some a, some b => decide (a ≤ b)
  | _, _ => false

/-- Comparison `a ≥ b` with NaN semantics. -/
def cellGE : Cell → Cell → Bool
  | some a, some b => decide (b ≤ a)
  | _, _ => false

/--
The fields of the enriched latest/previous dataframe rows that the
five-dimension scorer reads.  `close`/`openPrice`/`volume` are raw data
columns (`收盘`/`开盘`/`成交量`); the indicator columns can be NaN and the
columns absent from the dataframe are read by the pages through
`Series.get(col, nan)`, so they are all `Cell`s.
-/
structure ScoreRow where
  close : ℚ
  openPrice : ℚ
  volume : ℚ
  ma5 : Cell
  ma10 : Cell
  ma20 : Cell
  macd : Cell
  macdSignal : Cell
  bbMiddle : Cell
  bbUpper : Cell
  bbLower : Cell
  volumeMA5 : Cell
  hv20 : Cell
  bbWidth : Cell
  bbWidthMA5 : Cell
deriving DecidableEq

/-- Trend dimension: `ma_sig` of the decision pages
(`ma_bull = 收盘 > MA20 and MA5 > MA10 > MA20`, dually for `ma_bear`). -/
def maSig (latest : ScoreRow) : ℤ :=
  let maBull := cellGT (some latest.close) latest.ma20
      && cellGT latest.ma5 latest.ma10 && cellGT latest.ma10 latest.ma20
  let maBear := cellLT (some latest.close) latest.ma20
      && cellLT latest.ma5 latest.ma10 && cellLT latest.ma10 latest.ma20
  if maBull then 1 else if maBear then -1 else 0

/-- Momentum dimension: `macd_sig` (`MACD > 0 and MACD > MACD_Signal` bullish,
`MACD < 0 and MACD < MACD_Signal` bearish). -/
def macdSig (latest : ScoreRow) : ℤ :=
  let macdAbove0 := cellGT latest.macd (some 0)
  let macdBullish := cellGT latest.macd latest.macdSignal
  let macdBelow0 := cellLT latest.macd (some 0)
  let macdBearish := cellLT latest.macd latest.macdSignal
  if macdAbove0 && macdBullish then 1
  else if macdBelow0 && macdBearish then -1 else 0

/-- Position (Bollinger) dimension: `pos_sig`.  The `isSome` guards mirror the
explicit `not np.isnan(bb_mid)` checks of the source; the comparisons against
a NaN band are false by themselves, exactly as in the source. -/
def posSig (latest : ScoreRow) : ℤ :=
  let price := latest.close
  let posLong := latest.bbMiddle.isSome && cellGT (some price) latest.bbMiddle
      && cellLE (some price) latest.bbUpper
  let posShort := latest.bbMiddle.isSome && cellLT (some price) latest.bbMiddle
      && cellGE (some price) latest.bbLower
  let posNeutralExtreme := (latest.bbUpper.isSome && cellGT (some price) latest.bbUpper)
      || (latest.bbLower.isSome && cellLT (some price) latest.bbLower)
  if posNeutralExtreme then 0 else if posLong then 1 else if posShort then -1 else 0

/-- The `vol_ratio`: `成交量 / Volume_MA5` when the 5-day volume MA is defined and
nonzero, NaN otherwise (the source guard is
`vol_ma5 and not np.isnan(vol_ma5) and vol_ma5 != 0`). -/
def volQuotient (latest : ScoreRow) : Cell :=
  match latest.volumeMA5 with
  | some v => if v ≠ 0 then some (latest.volume / v) else none
  | none => none

/-- Volume-force dimension: `energy_sig` (`vol_ratio > 1.2` and the candle
direction decide the sign; a NaN ratio never fires either branch). -/
def energySig (latest : ScoreRow) : ℤ :=
  let isUpDay := decide (latest.openPrice ≤ latest.close)
  let surged := cellGT (volQuotient latest) (some 1.2)
  if surged && isUpDay then 1 else if surged && !isUpDay then -1 else 0

/-- The `hv_change`: +1 when HV20 rose by more than 5% bar-over-bar, −1 when it
fell by more than 5%, 0 otherwise or when either value is NaN. -/
def hvChange (latest prev : ScoreRow) : ℤ :=
  match latest.hv20, prev.hv20 with
  | some c, some p => if p * 1.05 < c then 1 else if c < p * 0.95 then -1 else 0
  | _, _ => 0

/-- The `bb_change`: +1 when the Bollinger band width exceeds 1.1 × its 5-day MA,
−1 when below 0.9 × it, 0 otherwise or when either value is NaN. -/
def bbChange (latest : ScoreRow) : ℤ :=
  match latest.bbWidth, latest.bbWidthMA5 with
  | some c, some m => if m * 1.1 < c then 1 else if c < m * 0.9 then -1 else 0
  | _, _ => 0

/-- Volatility dimension: `volatility_sig`
(`if hv_change > 0 or bb_change > 0: 1 elif hv_change < 0 or bb_change < 0: -1 else 0`). -/
def volatilitySig (latest prev : ScoreRow) : ℤ :=
  if 0 < hvChange latest prev ∨ 0 < bbChange latest then 1
  else if hvChange latest prev < 0 ∨ bbChange latest < 0 then -1
  else 0

/-- The composite score: the exact sum of the five dimension signals. -/
def score (latest prev : ScoreRow) : ℤ :=
  maSig latest + macdSig latest + posSig latest + energySig latest
    + volatilitySig latest prev

/-- The strategy mapper `advice` of both decision pages: an if/elif chain on
the composite score, refined by the volatility signal in the −1..+1 band. -/
def advice (s v : ℤ) : String :=
  if 4 ≤ s then "牛市看涨价差 + 卖出看跌 (Bull Call Spread + Sell Put)"
  else if s ≤ -4 then "熊市看跌价差 + 卖出看涨 (Bear Put Spread + Sell Call)"
  else if s = 3 then "牛市看涨价差 (Bull Call Spread)"
  else if s = 2 then "卖出看跌期权 (Sell Put)"
  else if s = -2 then "卖出看涨期权 (Sell Call)"
  else if s = -3 then "熊市看跌价差 (Bear Put Spread)"
  else if v = 1 then "卖出宽跨式 / 铁蝶式 (Short Strangle / Iron Butterfly)"
  else if v = -1 then "买入宽跨式 / 长期权 (Long Strangle / Long Options)"
  else "铁蝶式价差 (Iron Butterfly)"

/-- The decision table exactly as the specification states it: nine rows keyed
on the composite score, with the −1..+1 band split on the volatility signal. -/
def adviceTable (s v : ℤ) : String :=
  if 4 ≤ s then "牛市看涨价差 + 卖出看跌 (Bull Call Spread + Sell Put)"
  else if s = 3 then "牛市看涨价差 (Bull Call Spread)"
  else if s = 2 then "卖出看跌期权 (Sell Put)"
  else if -1 ≤ s ∧ s ≤ 1 ∧ v = 1 then "卖出宽跨式 / 铁蝶式 (Short Strangle / Iron Butterfly)"
  else if -1 ≤ s ∧ s ≤ 1 ∧ v = -1 then "买入宽跨式 / 长期权 (Long Strangle / Long Options)"
  else if -1 ≤ s ∧ s ≤ 1 then "铁蝶式价差 (Iron Butterfly)"
  else if s = -2 then "卖出看涨期权 (Sell Call)"
  else if s = -3 then "熊市看跌价差 (Bear Put Spread)"
  else "熊市看跌价差 + 卖出看涨 (Bear Put Spread + Sell Call)"

lemma maSig_cases (r : ScoreRow) : maSig r = -1 ∨ maSig r = 0 ∨ maSig r = 1 := by
  simp only [maSig]; split_ifs <;> simp

lemma macdSig_cases (r : ScoreRow) : macdSig r = -1 ∨ macdSig r = 0 ∨ macdSig r = 1 := by
  simp only [macdSig]; split_ifs <;> simp

lemma posSig_cases (r : ScoreRow) : posSig r = -1 ∨ posSig r = 0 ∨ posSig r = 1 := by
  simp only [posSig]; split_ifs <;> simp

lemma energySig_cases (r : ScoreRow) : energySig r = -1 ∨ energySig r = 0 ∨ energySig r = 1 := by
  simp only [energySig]; split_ifs <;> simp

lemma volatilitySig_cases (l p : ScoreRow) :
    volatilitySig l p = -1 ∨ volatilitySig l p = 0 ∨ volatilitySig l p = 1 := by
  simp only [volatilitySig]; split_ifs <;> simp

/-- C1: the strategy mapper is total and deterministic; for every integer
composite score (and volatility signal in the −1..+1 band) it returns exactly
the recommendation of the nine-row decision table of the specification. -/
theorem advice_matches_decision_table (s v : ℤ) : advice s v = adviceTable s v := by
  unfold advice adviceTable
  split_ifs <;> first | rfl | omega

/-- C2: each of the five dimension scores is in {−1, 0, +1}, the composite
score is their exact unweighted sum, and it therefore lies in [−5, +5]. -/
theorem score_dimensions_bounded_and_summed (latest prev : ScoreRow) :
    (maSig latest = -1 ∨ maSig latest = 0 ∨ maSig latest = 1) ∧
    (macdSig latest = -1 ∨ macdSig latest = 0 ∨ macdSig latest = 1) ∧
    (posSig latest = -1 ∨ posSig latest = 0 ∨ posSig latest = 1) ∧
    (energySig latest = -1 ∨ energySig latest = 0 ∨ energySig latest = 1) ∧
    (volatilitySig latest prev = -1 ∨ volatilitySig latest prev = 0 ∨
      volatilitySig latest prev = 1) ∧
    score latest prev = maSig latest + macdSig latest + posSig latest
      + energySig latest + volatilitySig latest prev ∧
    -5 ≤ score latest prev ∧ score latest prev ≤ 5 := by
  refine ⟨maSig_cases latest, macdSig_cases latest, posSig_cases latest,
    energySig_cases latest, volatilitySig_cases latest prev, rfl, ?_, ?_⟩ <;>
  · have h1 := maSig_cases latest
    have h2 := macdSig_cases latest
    have h3 := posSig_cases latest
    have h4 := energySig_cases latest
    have h5 := volatilitySig_cases latest prev
    unfold score
    omega

/-- pandas `Series.rolling(w).mean()`: arithmetic mean over the trailing window of
length `w`, NaN (`none`) until `w` values have accumulated. -/
def rollMean (w : ℕ) (xs : List ℚ) : List Cell :=
  (List.range xs.length).map (fun i =>
    if w ≤ i + 1 then some ((((xs.drop (i + 1 - w)).take w).sum) / w) else none)

/-- pandas `Series.diff()`: first entry NaN, then consecutive differences. -/
def diffList : List ℚ → List Cell
  | [] => []
  | x :: xs => none :: List.zipWith (fun a b => some (a - b)) xs (x :: xs)

/-- Streaming numerator/denominator recurrence behind pandas
`ewm(span).mean()` with the default `adjust=True`. -/
def ewmAdjGo (c : ℚ) (num den : ℚ) : List ℚ → List ℚ
  | [] => []
  | x :: xs =>
    (c * num + x) / (c * den + 1) :: ewmAdjGo c (c * num + x) (c * den + 1) xs

/-- pandas `Series.ewm(span=s).mean()` (default `adjust=True`): the weighted
mean `y_t = (Σ_{i≤t} (1−α)^i x_{t−i}) / (Σ_{i≤t} (1−α)^i)`, `α = 2/(s+1)`. -/
def ewmAdj (span : ℚ) (xs : List ℚ) : List ℚ :=
  ewmAdjGo (1 - 2 / (span + 1)) 0 0 xs

/-- The line `MACD = EMA12 − EMA26` of the closes, as in
`calculate_technical_indicators`. -/
def macdLine (closes : List ℚ) : List ℚ :=
  List.zipWith (fun a b => a - b) (ewmAdj 12 closes) (ewmAdj 26 closes)

/-- The line `MACD_Signal = MACD.ewm(span=9).mean()`. -/
def macdSignalLine (closes : List ℚ) : List ℚ := ewmAdj 9 (macdLine closes)

/-- The line `MACD_Histogram = MACD − MACD_Signal`. -/
def macdHistogram (closes : List ℚ) : List ℚ :=
  List.zipWith (fun a b => a - b) (macdLine closes) (macdSignalLine closes)

/-- The EMA the claim describes: the plain exponential-smoothing recurrence
seeded with the first value and without bias correction
(`y_0 = x_0`, `y_t = (1−α) y_{t−1} + α x_t`). -/
def emaRecGo (a : ℚ) (y : ℚ) : List ℚ → List ℚ
  | [] => []
  | x :: xs => ((1 - a) * y + a * x) :: emaRecGo a ((1 - a) * y + a * x) xs

/-- Seed-first recursive EMA over a whole series, span parameterised. -/
def emaRec (span : ℚ) : List ℚ → List ℚ
  | [] => []
  | x :: xs => x :: emaRecGo (2 / (span + 1)) x xs

/-- The MACD line that the wording of the claim would produce. -/
def macdLineClaim (closes : List ℚ) : List ℚ :=
  List.zipWith (fun a b => a - b) (emaRec 12 closes) (emaRec 26 closes)

/-- The three-way OBV direction of the source
(`np.where(pc > 0, 1, np.where(pc < 0, -1, 0))` after `diff().fillna(0)`). -/
def threeWaySign (d : Cell) : ℚ :=
  match d with
  | none => 0
  | some v => if 0 < v then 1 else if v < 0 then -1 else 0

/-- The signed-volume terms `direction * 成交量`. -/
def obvTerms (closes volumes : List ℚ) : List ℚ :=
  List.zipWith (fun d v => threeWaySign d * v) (diffList closes) volumes

/-- pandas `Series.cumsum()` with an accumulator. -/
def cumsumGo (acc : ℚ) : List ℚ → List ℚ
  | [] => []
  | x :: xs => (acc + x) :: cumsumGo (acc + x) xs

/-- pandas `Series.cumsum()`. -/
def cumsum (xs : List ℚ) : List ℚ := cumsumGo 0 xs

/-- The line `OBV = (direction * 成交量).cumsum()`. -/
def obvList (closes volumes : List ℚ) : List ℚ := cumsum (obvTerms closes volumes)

/-- The per-bar OBV sign that the source actually implements, written
directly over the close series: 0 for the first bar, +1 for a strict rise,
−1 for a strict fall, 0 for a flat close. -/
def obvSignSpec (closes : List ℚ) (j : ℕ) : ℚ :=
  if j = 0 then 0
  else if closes.getD (j-1) 0 < closes.getD j 0 then 1
  else if closes.getD j 0 < closes.getD (j-1) 0 then -1 else 0

/-- The columns `calculate_technical_indicators` assigns onto the dataframe
(`utils/etf_analysis_shared.py`, lines 90-127): neither `HV20` nor
`BB_Width` nor `BB_Width_MA5` is among them. -/
def producedColumns : List String :=
  ["MA5", "MA10", "MA20", "MA60", "MACD", "MACD_Signal", "MACD_Histogram",
   "RSI", "K", "D", "J", "OBV", "OBV_MA10", "涨跌幅",
   "BB_Middle", "BB_Upper", "BB_Lower", "Volume_MA5", "Volume_MA10"]

/-- pandas `Series.get(name, nan)` on a dataframe row: NaN when the column does not
exist in the frame. -/
def columnOrNone (cols : List String) (vals : String → Cell) (name : String) : Cell :=
  if name ∈ cols then vals name else none

/-- The row the decision pages actually score: the volatility inputs are read
with `latest.get` and a NaN default from a frame with columns `cols`. -/
def pageScoreRow (base : ScoreRow) (cols : List String) (vals : String → Cell) : ScoreRow :=
  { base with hv20 := columnOrNone cols vals "HV20",
              bbWidth := columnOrNone cols vals "BB_Width",
              bbWidthMA5 := columnOrNone cols vals "BB_Width_MA5" }

/-- C5 counterexample: for closes `[1, 2, 2]` and volumes `[5, 7, 11]` the
flat third bar contributes 0 to OBV, not `+volume` (= 11) as demanded by the
rule `sign +1 when close_j ≥ close_{j−1}` of the claim. -/
theorem obv_flat_day_counterexample :
    obvList [1, 2, 2] [5, 7, 11] = [0, 7, 7] ∧
    (obvList [1, 2, 2] [5, 7, 11]).getD 2 0
      - (obvList [1, 2, 2] [5, 7, 11]).getD 1 0 = 0 ∧
    ((0 : ℚ) ≠ 11) := by
  refine ⟨?_, ?_, by norm_num⟩ <;>
    norm_num [obvList, obvTerms, cumsum, cumsumGo, diffList, threeWaySign]

/-- C10: since the indicator pipeline never creates the `HV20`, `BB_Width`
and `BB_Width_MA5` columns, the pages read NaN for all three, the volatility
dimension is constantly 0, the composite score degenerates to the sum of the
four other dimensions and lies in [−4, +4], and the middle-band advice is
always the volatility-0 row. -/
theorem volatility_dimension_always_zero (base pbase : ScoreRow)
    (vals pvals : String → Cell) :
    volatilitySig (pageScoreRow base producedColumns vals)
        (pageScoreRow pbase producedColumns pvals) = 0 ∧
    score (pageScoreRow base producedColumns vals)
        (pageScoreRow pbase producedColumns pvals)
      = maSig (pageScoreRow base producedColumns vals)
        + macdSig (pageScoreRow base producedColumns vals)
        + posSig (pageScoreRow base producedColumns vals)
        + energySig (pageScoreRow base producedColumns vals) ∧
    -4 ≤ score (pageScoreRow base producedColumns vals)
        (pageScoreRow pbase producedColumns pvals) ∧
    score (pageScoreRow base producedColumns vals)
        (pageScoreRow pbase producedColumns pvals) ≤ 4 := by
  have hv : (pageScoreRow base producedColumns vals).hv20 = none := by
    simp [pageScoreRow, columnOrNone, producedColumns]
  have hw : (pageScoreRow base producedColumns vals).bbWidth = none := by
    simp [pageScoreRow, columnOrNone, producedColumns]
  have hsig : volatilitySig (pageScoreRow base producedColumns vals)
      (pageScoreRow pbase producedColumns pvals) = 0 := by
    unfold volatilitySig hvChange bbChange
    rw [hv, hw]
    simp
  refine ⟨hsig, ?_, ?_, ?_⟩ <;>
  · have h1 := maSig_cases (pageScoreRow base producedColumns vals)
    have h2 := macdSig_cases (pageScoreRow base producedColumns vals)
    have h3 := posSig_cases (pageScoreRow base producedColumns vals)
    have h4 := energySig_cases (pageScoreRow base producedColumns vals)
    unfold score
    omega

lemma getD_zipWith {α β γ : Type} (f : α → β → γ) (as : List α) (bs : List β)
    (t : ℕ) (d : γ) (da : α) (db : β) (h1 : t < as.length) (h2 : t < bs.length) :
    (List.zipWith f as bs).getD t d = f (as.getD t da) (bs.getD t db) := by
  induction as generalizing bs t with
  | nil => simp at h1
  | cons a as ih =>
    cases bs with
    | nil => simp at h2
    | cons b bs =>
      cases t with
      | zero => simp [List.zipWith]
      | succ t =>
        simp only [List.zipWith, List.getD_cons_succ]
        exact ih bs t (by simpa using h1) (by simpa using h2)

lemma cumsumGo_getD (acc : ℚ) (xs : List ℚ) (t : ℕ) (ht : t < xs.length) :
    (cumsumGo acc xs).getD t 0 = acc + ∑ j in Finset.range (t+1), xs.getD j 0 := by
  induction xs generalizing acc t with
  | nil => simp at ht
  | cons x xs ih =>
    cases t with
    | zero => simp [cumsumGo]
    | succ t =>
      have ht2 : t < xs.length := by simpa using ht
      simp only [cumsumGo, List.getD_cons_succ]
      rw [ih (acc + x) t ht2,
        Finset.sum_range_succ' (fun j => (x :: xs).getD j 0) (t+1)]
      simp only [List.getD_cons_succ, List.getD_cons_zero]
      ring

lemma length_diffList (xs : List ℚ) : (diffList xs).length = xs.length := by
  cases xs <;> simp [diffList]

lemma diffList_getD (closes : List ℚ) (t : ℕ) (ht : t < closes.length) :
    (diffList closes).getD t none =
      if t = 0 then none else some (closes.getD t 0 - closes.getD (t-1) 0) := by
  cases closes with
  | nil => simp at ht
  | cons x xs =>
    cases t with
    | zero => simp [diffList]
    | succ t =>
      have ht2 : t < xs.length := by simpa using ht
      simp only [diffList, List.getD_cons_succ]
      rw [getD_zipWith (fun a b => some (a - b)) xs (x :: xs) t none 0 0 ht2
        (Nat.lt_succ_of_lt ht2)]
      simp

lemma obvTerms_getD (closes volumes : List ℚ) (t : ℕ)
    (h1 : t < closes.length) (h2 : t < volumes.length) :
    (obvTerms closes volumes).getD t 0 = obvSignSpec closes t * volumes.getD t 0 := by
  rw [obvTerms, getD_zipWith (fun d v => threeWaySign d * v) _ _ t 0 none 0
    (by rw [length_diffList]; exact h1) h2]
  rw [diffList_getD closes t h1]
  cases t with
  | zero => simp [threeWaySign, obvSignSpec]
  | succ t => simp [threeWaySign, obvSignSpec, sub_pos, sub_neg]

/-- C5 (amended): OBV at index `t` is the cumulative sum over `j ≤ t` of
`sign_j × volume_j`, where `sign_j` is +1 for a strict rise of the close,
−1 for a strict fall, and 0 for a flat close — a flat bar contributes zero,
and the first bar (whose diff is NaN, filled with 0) also contributes zero. -/
theorem obv_cumulative_threeway (closes volumes : List ℚ) (t : ℕ)
    (hlen : closes.length = volumes.length) (ht : t < closes.length) :
    (obvList closes volumes).getD t 0
      = ∑ j in Finset.range (t+1), obvSignSpec closes j * volumes.getD j 0 := by
  have hterm : (obvTerms closes volumes).length = closes.length := by
    rw [obvTerms, List.length_zipWith, length_diffList, ← hlen, min_self]
  rw [obvList, cumsum, cumsumGo_getD 0 _ t (by rw [hterm]; exact ht), zero_add]
  refine Finset.sum_congr rfl fun j hj => ?_
  have hj2 : j < closes.length := lt_of_lt_of_le (Finset.mem_range.mp hj) ht
  exact obvTerms_getD closes volumes j hj2 (hlen ▸ hj2)

/-- Witness for the amended C5 theorem at a concrete three-bar series. -/
theorem obv_cumulative_threeway_witness :
    (obvList [1, 2, 2] [5, 7, 11]).getD 2 0
      = ∑ j in Finset.range 3, obvSignSpec [1, 2, 2] j * ([5, 7, 11] : List ℚ).getD j 0 :=
  obv_cumulative_threeway [1, 2, 2] [5, 7, 11] 2 (by norm_num) (by norm_num)

lemma length_ewmAdjGo (c num den : ℚ) (xs : List ℚ) :
    (ewmAdjGo c num den xs).length = xs.length := by
  induction xs generalizing num den with
  | nil => simp [ewmAdjGo]
  | cons x xs ih => simp [ewmAdjGo, ih]

lemma length_ewmAdj (span : ℚ) (xs : List ℚ) : (ewmAdj span xs).length = xs.length := by
  rw [ewmAdj, length_ewmAdjGo]

lemma length_macdLine (closes : List ℚ) : (macdLine closes).length = closes.length := by
  rw [macdLine, List.length_zipWith, length_ewmAdj, length_ewmAdj, min_self]

lemma length_macdSignalLine (closes : List ℚ) :
    (macdSignalLine closes).length = closes.length := by
  rw [macdSignalLine, length_ewmAdj, length_macdLine]

lemma ewmAdjGo_getD (c : ℚ) (num den : ℚ) (xs : List ℚ) (t : ℕ) (ht : t < xs.length) :
    (ewmAdjGo c num den xs).getD t 0 =
      (c^(t+1) * num + ∑ i in Finset.range (t+1), c^i * xs.getD (t-i) 0) /
      (c^(t+1) * den + ∑ i in Finset.range (t+1), c^i) := by
  induction xs generalizing num den t with
  | nil => simp at ht
  | cons x xs ih =>
    cases t with
    | zero => simp [ewmAdjGo]
    | succ t =>
      have ht2 : t < xs.length := by simpa using ht
      simp only [ewmAdjGo, List.getD_cons_succ]
      rw [ih (c * num + x) (c * den + 1) t ht2,
        Finset.sum_range_succ (fun i => c^i * (x :: xs).getD (t+1-i) 0) (t+1),
        Finset.sum_range_succ (fun i => c^i) (t+1)]
      have hidx : ∀ i ∈ Finset.range (t+1),
          c^i * (x :: xs).getD (t+1-i) 0 = c^i * xs.getD (t-i) 0 := by
        intro i hi
        have h : t + 1 - i = (t - i) + 1 := by
          have := Finset.mem_range.mp hi; omega
        rw [h, List.getD_cons_succ]
      rw [Finset.sum_congr rfl hidx]
      simp only [Nat.sub_self, List.getD_cons_zero]
      congr 1 <;> ring

lemma ewmAdj_getD (span : ℚ) (xs : List ℚ) (t : ℕ) (ht : t < xs.length) :
    (ewmAdj span xs).getD t 0 =
      (∑ i in Finset.range (t+1), (1 - 2/(span+1))^i * xs.getD (t-i) 0) /
      (∑ i in Finset.range (t+1), (1 - 2/(span+1))^i) := by
  rw [ewmAdj, ewmAdjGo_getD _ 0 0 xs t ht]
  simp

/-- C6 counterexample: pandas `ewm(span=…).mean()` defaults to `adjust=True`
(the weight-normalised, i.e. bias-corrected, form), not the seed-first
recurrence the claim describes.  On closes `[0, 13]` the MACD of the code at
index 1 is 7/24, while the recurrence of the claim yields 28/27. -/
theorem macd_ema_form_counterexample :
    macdLine [0, 13] = [0, 7/24] ∧ macdLineClaim [0, 13] = [0, 28/27] ∧
    ((7 : ℚ)/24 ≠ 28/27) := by
  refine ⟨?_, ?_, by norm_num⟩ <;>
    norm_num [macdLine, macdLineClaim, ewmAdj, ewmAdjGo, emaRec, emaRecGo]

/-- C6 (amended): at every index the histogram equals MACD − signal and the
MACD line equals EMA(12) − EMA(26) of the closes, where each EMA is the
adjusted (weight-normalised) exponential mean
`y_u = (Σ_{i≤u} (1−α)^i x_{u−i}) / (Σ_{i≤u} (1−α)^i)`, `α = 2/(span+1)`;
the signal line is the same mean with span 9 applied to the MACD line. -/
theorem macd_pipeline_characterization (closes : List ℚ) (t : ℕ)
    (ht : t < closes.length) :
    (macdHistogram closes).getD t 0
      = (macdLine closes).getD t 0 - (macdSignalLine closes).getD t 0 ∧
    (macdLine closes).getD t 0
      = (ewmAdj 12 closes).getD t 0 - (ewmAdj 26 closes).getD t 0 ∧
    macdSignalLine closes = ewmAdj 9 (macdLine closes) ∧
    (∀ span : ℚ, ∀ xs : List ℚ, ∀ u : ℕ, u < xs.length →
      (ewmAdj span xs).getD u 0 =
        (∑ i in Finset.range (u+1), (1 - 2/(span+1))^i * xs.getD (u-i) 0) /
        (∑ i in Finset.range (u+1), (1 - 2/(span+1))^i)) := by
  refine ⟨?_, ?_, rfl, fun span xs u hu => ewmAdj_getD span xs u hu⟩
  · exact getD_zipWith (fun a b => a - b) _ _ t 0 0 0
      (by rw [length_macdLine]; exact ht) (by rw [length_macdSignalLine]; exact ht)
  · exact getD_zipWith (fun a b => a - b) _ _ t 0 0 0
      (by rw [length_ewmAdj]; exact ht) (by rw [length_ewmAdj]; exact ht)

/-- Witness for the amended C6 theorem on the two-bar close series `[0, 13]`. -/
theorem macd_pipeline_characterization_witness :
    (macdHistogram [0, 13]).getD 1 0
      = (macdLine [0, 13]).getD 1 0 - (macdSignalLine [0, 13]).getD 1 0 ∧
    (macdLine [0, 13]).getD 1 0
      = (ewmAdj 12 [0, 13]).getD 1 0 - (ewmAdj 26 [0, 13]).getD 1 0 ∧
    macdSignalLine [0, 13] = ewmAdj 9 (macdLine [0, 13]) ∧
    (∀ span : ℚ, ∀ xs : List ℚ, ∀ u : ℕ, u < xs.length →
      (ewmAdj span xs).getD u 0 =
        (∑ i in Finset.range (u+1), (1 - 2/(span+1))^i * xs.getD (u-i) 0) /
        (∑ i in Finset.range (u+1), (1 - 2/(span+1))^i)) :=
  macd_pipeline_characterization [0, 13] 1 (by norm_num)

/-- A concrete latest row whose HV20 fell by more than 5% while its Bollinger
band width rose above 1.1 × its 5-day MA. -/
def rowC3latest : ScoreRow :=
  { close := 10, openPrice := 10, volume := 0,
    ma5 := none, ma10 := none, ma20 := none, macd := none, macdSignal := none,
    bbMiddle := none, bbUpper := none, bbLower := none, volumeMA5 := none,
    hv20 := some 90, bbWidth := some 120, bbWidthMA5 := some 100 }

/-- The matching previous row with the higher HV20. -/
def rowC3prev : ScoreRow := { rowC3latest with hv20 := some 100 }

/-- C3 counterexample: HV20 fell by more than 5% (100 → 90) while the band
width rose by more than 10% (120 against a 5-day MA of 100).  The code
returns +1, not the −1 that the HV-checked-first tie-break of the claim demands:
a positive branch on either measure wins over a negative one. -/
theorem volatility_tiebreak_counterexample :
    hvChange rowC3latest rowC3prev = -1 ∧ bbChange rowC3latest = 1 ∧
    volatilitySig rowC3latest rowC3prev = 1 ∧ ((1 : ℤ) ≠ -1) := by
  refine ⟨?_, ?_, ?_, by norm_num⟩ <;>
    norm_num [hvChange, bbChange, volatilitySig, rowC3latest, rowC3prev]

/-- C3 (amended): when the HV comparison and the band-width comparison
disagree in direction, the rising side wins regardless of which is checked
first: the volatility score is +1. -/
theorem volatility_disagreement_favors_rise (latest prev : ScoreRow)
    (h : (hvChange latest prev = 1 ∧ bbChange latest = -1) ∨
         (hvChange latest prev = -1 ∧ bbChange latest = 1)) :
    volatilitySig latest prev = 1 := by
  rcases h with ⟨h1, h2⟩ | ⟨h1, h2⟩ <;> simp [volatilitySig, h1, h2]

/-- Witness for the amended C3 theorem at the concrete disagreeing rows. -/
theorem volatility_disagreement_witness :
    volatilitySig rowC3latest rowC3prev = 1 :=
  volatility_disagreement_favors_rise rowC3latest rowC3prev
    (Or.inr ⟨by norm_num [hvChange, rowC3latest, rowC3prev],
             by norm_num [bbChange, rowC3latest]⟩)

/-- The Bollinger bands of an enriched row are coherent: either the whole
20-bar window is missing (all three bands NaN), or all three are defined with
`lower ≤ middle ≤ upper` (middle ± 2σ, σ ≥ 0). -/
def bandsCoherent (r : ScoreRow) : Prop :=
  (r.bbMiddle = none ∧ r.bbUpper = none ∧ r.bbLower = none) ∨
  (∃ m u l, r.bbMiddle = some m ∧ r.bbUpper = some u ∧ r.bbLower = some l ∧
    l ≤ m ∧ m ≤ u)

/-- The position rule exactly as the claim words it: 0 strictly outside the
bands, otherwise the sign of `close − middle`, and 0 when a band is
undefined. -/
def posSigSpec (r : ScoreRow) : ℤ :=
  match r.bbMiddle, r.bbUpper, r.bbLower with
  | some m, some u, some l =>
    if u < r.close ∨ r.close < l then 0
    else if m < r.close then 1 else if r.close < m then -1 else 0
  | _, _, _ => 0

/-- C4: on rows with coherent Bollinger bands the position score is 0 in the
extreme region (close strictly outside the bands), otherwise +1/−1/0 by the
comparison of the close with the middle band, and 0 when the bands are
undefined. -/
theorem posSig_matches_claim (r : ScoreRow) (h : bandsCoherent r) :
    posSig r = posSigSpec r := by
  rcases h with ⟨h1, h2, h3⟩ | ⟨m, u, l, h1, h2, h3, hlm, hmu⟩
  · simp [posSig, posSigSpec, h1, h2, h3, cellGT, cellLT, cellLE, cellGE]
  · simp only [posSig, posSigSpec, h1, h2, h3, cellGT, cellLT, cellLE, cellGE,
      Option.isSome_some, Bool.true_and, Bool.and_eq_true, Bool.or_eq_true,
      decide_eq_true_eq]
    by_cases hx : u < r.close ∨ r.close < l
    · simp [hx]
    · have hcu : r.close ≤ u := le_of_not_lt fun hc => hx (Or.inl hc)
      have hlc : l ≤ r.close := le_of_not_lt fun hc => hx (Or.inr hc)
      simp only [hx, if_false]
      rcases lt_trichotomy m r.close with hm | hm | hm
      · simp [hm, hcu, lt_asymm hm]
      · simp [hm, lt_irrefl]
      · simp [hm, hlc, lt_asymm hm]

/-- Witness for C4 at a concrete row with coherent bands. -/
def rowC4 : ScoreRow :=
  { close := 11, openPrice := 11, volume := 0,
    ma5 := none, ma10 := none, ma20 := none, macd := none, macdSignal := none,
    bbMiddle := some 10, bbUpper := some 12, bbLower := some 8,
    volumeMA5 := none, hv20 := none, bbWidth := none, bbWidthMA5 := none }

/-- Witness: the C4 equivalence applied at `rowC4`. -/
theorem posSig_matches_claim_witness : posSig rowC4 = posSigSpec rowC4 :=
  posSig_matches_claim rowC4
    (Or.inr ⟨10, 12, 8, rfl, rfl, rfl, by norm_num, by norm_num⟩)

/-- pandas `Series.rolling(window=p).agg(g)`: `g` of the trailing `p`-window, NaN
until `p` values have accumulated. -/
def rollingAgg (g : List ℚ → Cell) (p : ℕ) (xs : List ℚ) : List Cell :=
  (List.range xs.length).map (fun i =>
    if p ≤ i + 1 then g ((xs.drop (i + 1 - p)).take p) else none)

/-- The channel `high.rolling(window=p).max()` of `calculate_donchian_channels`. -/
def rollingMax (p : ℕ) (xs : List ℚ) : List Cell :=
  rollingAgg (fun w => w.max?) p xs

/-- The channel `low.rolling(window=p).min()` of `calculate_donchian_channels`. -/
def rollingMin (p : ℕ) (xs : List ℚ) : List Cell :=
  rollingAgg (fun w => w.min?) p xs

/-- pandas `Series.shift(1)`: everything moves one bar later; the first bar is NaN. -/
def shiftOne : List Cell → List Cell
  | [] => []
  | x :: xs => none :: (x :: xs).dropLast

/-- Elementwise `close > ref` with NaN semantics. -/
def gtSeries (closes : List ℚ) (ref : List Cell) : List Bool :=
  List.zipWith (fun c r => cellGT (some c) r) closes ref

/-- Elementwise `close < ref` with NaN semantics. -/
def ltSeries (closes : List ℚ) (ref : List Cell) : List Bool :=
  List.zipWith (fun c r => cellLT (some c) r) closes ref

/-- The signal `long_entry = close > entry_high.shift(1)`. -/
def longEntrySignal (highs closes : List ℚ) (entryPeriod : ℕ) : List Bool :=
  gtSeries closes (shiftOne (rollingMax entryPeriod highs))

/-- The signal `short_entry = close < entry_low.shift(1)`. -/
def shortEntrySignal (lows closes : List ℚ) (entryPeriod : ℕ) : List Bool :=
  ltSeries closes (shiftOne (rollingMin entryPeriod lows))

/-- The signal `long_exit = close < exit_low.shift(1)`. -/
def longExitSignal (lows closes : List ℚ) (exitPeriod : ℕ) : List Bool :=
  ltSeries closes (shiftOne (rollingMin exitPeriod lows))

/-- The signal `short_exit = close > exit_high.shift(1)`. -/
def shortExitSignal (highs closes : List ℚ) (exitPeriod : ℕ) : List Bool :=
  gtSeries closes (shiftOne (rollingMax exitPeriod highs))

/-- The Donchian reference channel strictly before bar `t`: the window
`xs[t−p .. t−1]` of the last `p` bars before `t`, which never contains bar
`t`; undefined unless a full lagged window exists. -/
def prevWindow (p t : ℕ) (xs : List ℚ) : List ℚ := (xs.drop (t - p)).take p

lemma length_rollingAgg (g : List ℚ → Cell) (p : ℕ) (xs : List ℚ) :
    (rollingAgg g p xs).length = xs.length := by
  simp [rollingAgg]

lemma length_shiftOne (xs : List Cell) : (shiftOne xs).length = xs.length := by
  cases xs <;> simp [shiftOne]

lemma shiftOne_getD (xs : List Cell) (t : ℕ) (ht : t < xs.length) :
    (shiftOne xs).getD t none = if t = 0 then none else xs.getD (t-1) none := by
  cases xs with
  | nil => simp at ht
  | cons x xs =>
    cases t with
    | zero => simp [shiftOne]
    | succ t =>
      have ht3 : t + 1 < xs.length + 1 := by simpa using ht
      simp only [shiftOne, List.getD_cons_succ, Nat.succ_ne_zero, if_false,
        Nat.add_sub_cancel]
      have hlt : t < ((x :: xs).dropLast).length := by
        simp only [List.length_dropLast, List.length_cons]
        omega
      rw [List.getD_eq_getElem _ _ hlt, List.getElem_dropLast,
        List.getD_eq_getElem _ _ (by simp only [List.length_cons]; omega)]

lemma rollingAgg_getD (g : List ℚ → Cell) (p : ℕ) (xs : List ℚ) (t : ℕ)
    (ht : t < xs.length) :
    (rollingAgg g p xs).getD t none =
      if p ≤ t + 1 then g ((xs.drop (t + 1 - p)).take p) else none := by
  have hlen : t < (rollingAgg g p xs).length := by rw [length_rollingAgg]; exact ht
  rw [List.getD_eq_getElem _ _ hlen]
  simp [rollingAgg]

lemma shift_rollingAgg_getD (g : List ℚ → Cell) (p : ℕ) (xs : List ℚ) (t : ℕ)
    (ht : t < xs.length) (hg : g [] = none) :
    (shiftOne (rollingAgg g p xs)).getD t none =
      if p ≤ t then g (prevWindow p t xs) else none := by
  rw [shiftOne_getD _ t (by rw [length_rollingAgg]; exact ht)]
  cases t with
  | zero =>
    rcases Nat.eq_zero_or_pos p with hp | hp
    · simp [hp, prevWindow, hg]
    · simp [Nat.not_le.mpr hp]
  | succ t =>
    have ht2 : t < xs.length := by omega
    simp only [Nat.succ_ne_zero, if_false, Nat.add_sub_cancel]
    rw [rollingAgg_getD g p xs t ht2]
    rfl

lemma cellGT_some_iff (c : ℚ) (o : Cell) :
    cellGT (some c) o = true ↔ ∃ m, o = some m ∧ m < c := by
  cases o <;> simp [cellGT]

lemma cellLT_some_iff (c : ℚ) (o : Cell) :
    cellLT (some c) o = true ↔ ∃ m, o = some m ∧ c < m := by
  cases o <;> simp [cellLT]

/-- C7: each turtle signal at bar `t` fires exactly when the close crosses the
Donchian channel of the `p`-bar window ending at bar `t−1` — the reference
channel is lagged one bar and never includes bar `t`, for entries and exits
alike; with no full lagged window no signal fires. -/
theorem turtle_breakout_lagged_channel (highs lows closes : List ℚ)
    (entryPeriod exitPeriod t : ℕ)
    (hh : highs.length = closes.length) (hl : lows.length = closes.length)
    (ht : t < closes.length) :
    ((longEntrySignal highs closes entryPeriod).getD t false = true ↔
      (entryPeriod ≤ t ∧ ∃ m, (prevWindow entryPeriod t highs).max? = some m ∧
        m < closes.getD t 0)) ∧
    ((shortEntrySignal lows closes entryPeriod).getD t false = true ↔
      (entryPeriod ≤ t ∧ ∃ m, (prevWindow entryPeriod t lows).min? = some m ∧
        closes.getD t 0 < m)) ∧
    ((longExitSignal lows closes exitPeriod).getD t false = true ↔
      (exitPeriod ≤ t ∧ ∃ m, (prevWindow exitPeriod t lows).min? = some m ∧
        closes.getD t 0 < m)) ∧
    ((shortExitSignal highs closes exitPeriod).getD t false = true ↔
      (exitPeriod ≤ t ∧ ∃ m, (prevWindow exitPeriod t highs).max? = some m ∧
        m < closes.getD t 0)) := by
  have key : ∀ (g : List ℚ → Cell) (p : ℕ) (xs : List ℚ), g [] = none →
      xs.length = closes.length →
      (gtSeries closes (shiftOne (rollingAgg g p xs))).getD t false =
        cellGT (some (closes.getD t 0))
          (if p ≤ t then g (prevWindow p t xs) else none) := by
    intro g p xs hg hx
    rw [gtSeries, getD_zipWith (fun c r => cellGT (some c) r) _ _ t false 0 none ht
      (by rw [length_shiftOne, length_rollingAgg, hx]; exact ht)]
    rw [shift_rollingAgg_getD g p xs t (by rw [hx]; exact ht) hg]
  have keyLT : ∀ (g : List ℚ → Cell) (p : ℕ) (xs : List ℚ), g [] = none →
      xs.length = closes.length →
      (ltSeries closes (shiftOne (rollingAgg g p xs))).getD t false =
        cellLT (some (closes.getD t 0))
          (if p ≤ t then g (prevWindow p t xs) else none) := by
    intro g p xs hg hx
    rw [ltSeries, getD_zipWith (fun c r => cellLT (some c) r) _ _ t false 0 none ht
      (by rw [length_shiftOne, length_rollingAgg, hx]; exact ht)]
    rw [shift_rollingAgg_getD g p xs t (by rw [hx]; exact ht) hg]
  refine ⟨?_, ?_, ?_, ?_⟩
  · rw [longEntrySignal, rollingMax, key _ entryPeriod highs rfl hh]
    by_cases hp : entryPeriod ≤ t
    · simp only [hp, if_true, true_and]
      exact cellGT_some_iff _ _
    · simp [hp, cellGT]
  · rw [shortEntrySignal, rollingMin, keyLT _ entryPeriod lows rfl hl]
    by_cases hp : entryPeriod ≤ t
    · simp only [hp, if_true, true_and]
      exact cellLT_some_iff _ _
    · simp [hp, cellLT]
  · rw [longExitSignal, rollingMin, keyLT _ exitPeriod lows rfl hl]
    by_cases hp : exitPeriod ≤ t
    · simp only [hp, if_true, true_and]
      exact cellLT_some_iff _ _
    · simp [hp, cellLT]
  · rw [shortExitSignal, rollingMax, key _ exitPeriod highs rfl hh]
    by_cases hp : exitPeriod ≤ t
    · simp only [hp, if_true, true_and]
      exact cellGT_some_iff _ _
    · simp [hp, cellGT]

/-- Witness for C7: a three-bar series, entry period 2, exit period 1, at the
final bar. -/
theorem turtle_breakout_lagged_witness :
    ((longEntrySignal [5, 6, 7] [5, 6, 8] 2).getD 2 false = true ↔
      (2 ≤ 2 ∧ ∃ m, (prevWindow 2 2 [5, 6, 7]).max? = some m ∧
        m < ([5, 6, 8] : List ℚ).getD 2 0)) ∧
    ((shortEntrySignal [1, 2, 3] [5, 6, 8] 2).getD 2 false = true ↔
      (2 ≤ 2 ∧ ∃ m, (prevWindow 2 2 [1, 2, 3]).min? = some m ∧
        ([5, 6, 8] : List ℚ).getD 2 0 < m)) ∧
    ((longExitSignal [1, 2, 3] [5, 6, 8] 1).getD 2 false = true ↔
      (1 ≤ 2 ∧ ∃ m, (prevWindow 1 2 [1, 2, 3]).min? = some m ∧
        ([5, 6, 8] : List ℚ).getD 2 0 < m)) ∧
    ((shortExitSignal [5, 6, 7] [5, 6, 8] 1).getD 2 false = true ↔
      (1 ≤ 2 ∧ ∃ m, (prevWindow 1 2 [5, 6, 7]).max? = some m ∧
        m < ([5, 6, 8] : List ℚ).getD 2 0)) :=
  turtle_breakout_lagged_channel [5, 6, 7] [1, 2, 3] [5, 6, 8] 2 1 2 rfl rfl
    (by norm_num)

/-- The series `gain = delta.where(delta > 0, 0)`: up-moves, with the NaN first diff
replaced by 0 (the `where` condition is false on NaN). -/
def gainList (closes : List ℚ) : List ℚ :=
  (diffList closes).map (fun d =>
    match d with
    | some v => if 0 < v then v else 0
    | none => 0)

/-- The series `loss = -delta.where(delta < 0, 0)`: magnitudes of down-moves. -/
def lossList (closes : List ℚ) : List ℚ :=
  (diffList closes).map (fun d =>
    match d with
    | some v => if v < 0 then -v else 0
    | none => 0)

/-- The ratio `rs = gain / loss.replace(0, nan)`: a zero average loss becomes NaN and
NaN propagates through the division, so no division by zero occurs. -/
def rsOf : Cell → Cell → Cell
  | some g, some l => if l = 0 then none else some (g / l)
  | _, _ => none

/-- The RS series of `calculate_technical_indicators`. -/
def rsList (closes : List ℚ) : List Cell :=
  List.zipWith rsOf (rollMean 14 (gainList closes)) (rollMean 14 (lossList closes))

/-- The series `RSI = 100 − 100/(1 + rs)`, NaN wherever RS is NaN. -/
def rsiList (closes : List ℚ) : List Cell :=
  (rsList closes).map (fun r =>
    match r with
    | some v => some (100 - 100 / (1 + v))
    | none => none)

/-- The RSI table score of the decision page: 0 when RSI is NaN, +1 below
30, −1 above 70, otherwise 0 — a NaN RSI degrades to a neutral 0. -/
def rsiNum (v : Cell) : ℤ :=
  match v with
  | none => 0
  | some x => if x < 30 then 1 else if 70 < x then -1 else 0

lemma length_rollMean (w : ℕ) (xs : List ℚ) : (rollMean w xs).length = xs.length := by
  simp [rollMean]

lemma length_gainList (closes : List ℚ) : (gainList closes).length = closes.length := by
  rw [gainList, List.length_map, length_diffList]

lemma length_lossList (closes : List ℚ) : (lossList closes).length = closes.length := by
  rw [lossList, List.length_map, length_diffList]

lemma length_rsList (closes : List ℚ) : (rsList closes).length = closes.length := by
  rw [rsList, List.length_zipWith, length_rollMean, length_rollMean,
    length_gainList, length_lossList, min_self]

lemma length_rsiList (closes : List ℚ) : (rsiList closes).length = closes.length := by
  rw [rsiList, List.length_map, length_rsList]

lemma getD_map {α β : Type} (f : α → β) (l : List α) (t : ℕ) (d : β) (da : α)
    (h : t < l.length) : (l.map f).getD t d = f (l.getD t da) := by
  rw [List.getD_eq_getElem _ _ (by simpa using h), List.getElem_map,
    List.getD_eq_getElem _ _ h]

lemma gainList_nonneg (closes : List ℚ) : ∀ x ∈ gainList closes, 0 ≤ x := by
  intro x hx
  obtain ⟨d, _, hd⟩ := List.mem_map.mp hx
  subst hd
  cases d with
  | none => norm_num
  | some v =>
    dsimp only
    split_ifs with h
    · exact le_of_lt h
    · norm_num

lemma lossList_nonneg (closes : List ℚ) : ∀ x ∈ lossList closes, 0 ≤ x := by
  intro x hx
  obtain ⟨d, _, hd⟩ := List.mem_map.mp hx
  subst hd
  cases d with
  | none => norm_num
  | some v =>
    dsimp only
    split_ifs with h
    · linarith
    · norm_num

lemma rollMean_nonneg (w : ℕ) (xs : List ℚ) (hxs : ∀ x ∈ xs, 0 ≤ x) (t : ℕ)
    (q : ℚ) (hq : (rollMean w xs).getD t none = some q) : 0 ≤ q := by
  by_cases ht : t < xs.length
  · rw [List.getD_eq_getElem _ _ (by rw [length_rollMean]; exact ht)] at hq
    simp only [rollMean, List.getElem_map, List.getElem_range] at hq
    split_ifs at hq with hw
    · have hsum : 0 ≤ ((xs.drop (t + 1 - w)).take w).sum := by
        apply List.sum_nonneg
        intro x hx
        exact hxs x (List.mem_of_mem_drop (List.mem_of_mem_take hx))
      have hq2 : q = ((xs.drop (t + 1 - w)).take w).sum / w := by
        exact_mod_cast (Option.some_inj.mp hq).symm
      rw [hq2]
      positivity
  · rw [List.getD_eq_default _ _ (by rw [length_rollMean]; omega)] at hq
    simp at hq

/-- C9: wherever RSI is defined it lies in [0, 100]; a window with zero
average loss (e.g. a flat series) makes RS — and hence RSI — NaN instead of
dividing by zero; and the RSI table score of the page maps a NaN RSI to 0, so the
degenerate value never leaks into a score. -/
theorem rsi_bounded_and_flat_none (closes : List ℚ) (t : ℕ) :
    (∀ v : ℚ, (rsiList closes).getD t none = some v → 0 ≤ v ∧ v ≤ 100) ∧
    ((rollMean 14 (lossList closes)).getD t none = some 0 →
      (rsiList closes).getD t none = none) ∧
    rsiNum none = 0 := by
  have hconv : ∀ hlen : t < closes.length,
      (rsiList closes).getD t none =
        (match rsOf ((rollMean 14 (gainList closes)).getD t none)
            ((rollMean 14 (lossList closes)).getD t none) with
          | some v => some (100 - 100 / (1 + v))
          | none => none) := by
    intro hlen
    rw [rsiList, getD_map _ _ t none none (by rw [length_rsList]; exact hlen)]
    rw [rsList, getD_zipWith rsOf _ _ t none none none
      (by rw [length_rollMean, length_gainList]; exact hlen)
      (by rw [length_rollMean, length_lossList]; exact hlen)]
  refine ⟨?_, ?_, rfl⟩
  · intro v hv
    have hlen : t < closes.length := by
      by_contra hc
      rw [List.getD_eq_default _ _ (by rw [length_rsiList]; omega)] at hv
      exact Option.noConfusion hv
    rw [hconv hlen] at hv
    cases hGm : (rollMean 14 (gainList closes)).getD t none with
    | none => rw [hGm] at hv; simp [rsOf] at hv
    | some g =>
    cases hLm : (rollMean 14 (lossList closes)).getD t none with
    | none => rw [hGm, hLm] at hv; simp [rsOf] at hv
    | some l =>
      rw [hGm, hLm] at hv
      simp only [rsOf] at hv
      rcases eq_or_ne l 0 with hl0 | hl0
      · rw [if_pos hl0] at hv
        simp at hv
      · rw [if_neg hl0] at hv
        dsimp only at hv
        have hveq : v = 100 - 100 / (1 + g / l) := (Option.some_inj.mp hv).symm
        have hg : 0 ≤ g := rollMean_nonneg 14 _ (gainList_nonneg closes) t g hGm
        have hl : 0 ≤ l := rollMean_nonneg 14 _ (lossList_nonneg closes) t l hLm
        have hr : 0 ≤ g / l := div_nonneg hg hl
        have h1r : (1 : ℚ) ≤ 1 + g / l := by linarith
        have hdivle : 100 / (1 + g / l) ≤ 100 := div_le_self (by norm_num) h1r
        have hdivpos : 0 < 100 / (1 + g / l) := div_pos (by norm_num) (by linarith)
        constructor
        · rw [hveq]; linarith
        · rw [hveq]; linarith
  · intro hzero
    have hlen : t < closes.length := by
      by_contra hc
      rw [List.getD_eq_default _ _ (by rw [length_rollMean, length_lossList]; omega)]
        at hzero
      exact Option.noConfusion hzero
    rw [hconv hlen, hzero]
    cases hGm : (rollMean 14 (gainList closes)).getD t none with
    | none => simp [rsOf]
    | some g => simp [rsOf]

lemma rollMean_getD (w : ℕ) (xs : List ℚ) (t : ℕ) (ht : t < xs.length) :
    (rollMean w xs).getD t none =
      if w ≤ t + 1 then some ((((xs.drop (t + 1 - w)).take w).sum) / w) else none := by
  rw [List.getD_eq_getElem _ _ (by rw [length_rollMean]; exact ht)]
  simp [rollMean]

/-- An alternating 15-bar close series whose RSI at the last bar is 50. -/
def closesW : List ℚ := [1, 2, 1, 2, 1, 2, 1, 2, 1, 2, 1, 2, 1, 2, 1]

/-- A flat 15-bar close series: every 14-bar average loss is zero. -/
def flatW : List ℚ := [7, 7, 7, 7, 7, 7, 7, 7, 7, 7, 7, 7, 7, 7, 7]

/-- Witness for C9: the bound applied at RSI = 50 of the alternating series,
and the NaN propagation applied at the flat series. -/
theorem rsi_bounded_witness :
    ((0 : ℚ) ≤ 50 ∧ (50 : ℚ) ≤ 100) ∧
    (rsiList flatW).getD 14 none = none ∧ rsiNum none = 0 := by
  have hg : (rollMean 14 (gainList closesW)).getD 14 none = some (1/2) := by
    rw [rollMean_getD 14 _ 14 (by rw [length_gainList]; norm_num [closesW])]
    norm_num [gainList, diffList, closesW]
  have hl : (rollMean 14 (lossList closesW)).getD 14 none = some (1/2) := by
    rw [rollMean_getD 14 _ 14 (by rw [length_lossList]; norm_num [closesW])]
    norm_num [lossList, diffList, closesW]
  have hrsi : (rsiList closesW).getD 14 none = some 50 := by
    rw [rsiList, getD_map _ _ 14 none none (by rw [length_rsList]; norm_num [closesW])]
    rw [rsList, getD_zipWith rsOf _ _ 14 none none none
      (by rw [length_rollMean, length_gainList]; norm_num [closesW])
      (by rw [length_rollMean, length_lossList]; norm_num [closesW]), hg, hl]
    norm_num [rsOf]
  have hloss0 : (rollMean 14 (lossList flatW)).getD 14 none = some 0 := by
    rw [rollMean_getD 14 _ 14 (by rw [length_lossList]; norm_num [flatW])]
    norm_num [lossList, diffList, flatW]
  exact ⟨(rsi_bounded_and_flat_none closesW 14).1 50 hrsi,
         (rsi_bounded_and_flat_none flatW 14).2.1 hloss0,
         (rsi_bounded_and_flat_none flatW 14).2.2⟩

/-- A row of the enriched dataframe as read by
`calculate_support_resistance`: raw `最高`/`最低`/`收盘` plus the moving
averages and Bollinger bands of the latest bar. -/
structure SRRow where
  high : ℚ
  low : ℚ
  close : ℚ
  ma5 : Cell
  ma10 : Cell
  ma20 : Cell
  ma60 : Cell
  bbUpper : Cell
  bbLower : Cell
  bbMiddle : Cell
deriving DecidableEq, Inhabited

/-- A candidate or merged level: its price, the source tags, and whether the
`支撑`/`阻力` marker occurs in its type string (the type string of a group contains
`支撑` iff some member was tagged as support, likewise for resistance). -/
structure SRLevel where
  price : ℚ
  sources : List String
  sup : Bool
  res : Bool
deriving DecidableEq

/-- The check `abs(price − current)/current <= tol` under float semantics: dividing by
a zero current price gives inf or NaN, so the comparison is false. -/
def withinTol (price cp tol : ℚ) : Bool :=
  if cp = 0 then false else decide (|price - cp| / cp ≤ tol)

/-- Local highs: indices `i` in `range(w2, len−w2)` whose `最高` equals the
maximum over the centred window `iloc[i−w2 : i+w2+1]`. -/
def localHighs (recent : List SRRow) (w2 : ℕ) : List ℚ :=
  (List.range' w2 (recent.length - w2 - w2)).filterMap (fun i =>
    if (((recent.drop (i - w2)).take (2 * w2 + 1)).map (fun r => r.high)).max?
        = some (recent.getD i default).high
    then some (recent.getD i default).high else none)

/-- Local lows: dual of `localHighs` on `最低` with the window minimum. -/
def localLows (recent : List SRRow) (w2 : ℕ) : List ℚ :=
  (List.range' w2 (recent.length - w2 - w2)).filterMap (fun i =>
    if (((recent.drop (i - w2)).take (2 * w2 + 1)).map (fun r => r.low)).min?
        = some (recent.getD i default).low
    then some (recent.getD i default).low else none)

/-- Lower edge of the `np.histogram` range: the data minimum, expanded by 0.5
when all values coincide (the numpy degenerate-range rule). -/
def histLo (vals : List ℚ) : ℚ :=
  let mn := vals.min?.getD 0
  let mx := vals.max?.getD 0
  if mn = mx then mn - 0.5 else mn

/-- Upper edge of the `np.histogram` range, dual of `histLo`. -/
def histHi (vals : List ℚ) : ℚ :=
  let mn := vals.min?.getD 0
  let mx := vals.max?.getD 0
  if mn = mx then mx + 0.5 else mx

/-- The `j`-th of the `bins+1` equally spaced bin edges. -/
def histEdge (vals : List ℚ) (bins j : ℕ) : ℚ :=
  histLo vals + j * (histHi vals - histLo vals) / bins

/-- The counts of `np.histogram(vals, bins)`: half-open bins, the last bin closed. -/
def histCounts (vals : List ℚ) (bins : ℕ) : List ℕ :=
  (List.range bins).map (fun b =>
    (vals.filter (fun v =>
      decide (histEdge vals bins b ≤ v) &&
        (decide (v < histEdge vals bins (b+1)) ||
          (decide (b = bins - 1) && decide (v ≤ histEdge vals bins bins))))).length)

/-- The quantile `np.percentile(ys, q)` with the default linear interpolation:
sort ascending, position `q/100 × (n−1)`, interpolate between neighbours. -/
def percentileLinear (q : ℚ) (ys : List ℚ) : ℚ :=
  let s := List.insertionSort (fun a b : ℚ => a ≤ b) ys
  let pos : ℚ := q / 100 * ((s.length : ℚ) - 1)
  let k : ℕ := (Int.floor pos).toNat
  let frac : ℚ := pos - (k : ℚ)
  s.getD k 0 + frac * (s.getD (k+1) (s.getD k 0) - s.getD k 0)

/-- Midpoints of the bins whose count reaches the 70th percentile of all bin
counts (`价格密集区`). -/
def denseAreas (vals : List ℚ) (bins : ℕ) : List ℚ :=
  let counts := histCounts vals bins
  let thr := percentileLinear 70 (counts.map (fun c => (c : ℚ)))
  (List.range bins).filterMap (fun b =>
    if thr ≤ ((counts.getD b 0 : ℕ) : ℚ) then
      some ((histEdge vals bins b + histEdge vals bins (b+1)) / 2)
    else none)

/-- Merge one group: mean price, union (dedup) of source tags, and the OR of
the support/resistance markers (the joined type string contains `支撑` iff a
member did). -/
def flushGroup (g : List SRLevel) : SRLevel :=
  { price := (g.map (fun l => l.price)).sum / g.length,
    sources := ((g.map (fun l => l.sources)).flatten).dedup,
    sup := g.any (fun l => l.sup),
    res := g.any (fun l => l.res) }

/-- The grouping loop: a level joins the current group when its price is
within the tolerance of the FIRST member of the group, else the group is flushed. -/
def groupGo (tol : ℚ) (first : SRLevel) (members : List SRLevel) :
    List SRLevel → List SRLevel
  | [] => [flushGroup members.reverse]
  | l :: rest =>
    if |l.price - first.price| ≤ tol then groupGo tol first (l :: members) rest
    else flushGroup members.reverse :: groupGo tol l [l] rest

/-- The list `grouped_levels` of the source: group the price-sorted candidates. -/
def groupLevels (tol : ℚ) : List SRLevel → List SRLevel
  | [] => []
  | l :: rest => groupGo tol l [l] rest

/-- The `current_price`: the close of the last of the (at most) 100 recent bars. -/
def srCurrentPrice (df : List SRRow) : ℚ :=
  ((df.drop (df.length - min 100 df.length)).getLastD default).close

/-- Candidate collection, filtering, sorting and grouping of
`calculate_support_resistance`, producing `grouped_levels`. -/
def srGrouped (df : List SRRow) (window : ℕ) : List SRLevel :=
  let recent := df.drop (df.length - min 100 df.length)
  let w2 := window / 2
  let latest := recent.getLastD default
  let cp := latest.close
  let prices := recent.map (fun r => r.high) ++ recent.map (fun r => r.low)
      ++ recent.map (fun r => r.close)
  let lvls1 := ((localHighs recent w2).filter (fun p => withinTol p cp 0.15)).map
      (fun p => SRLevel.mk p ["局部高点"] false true)
  let lvls2 := ((localLows recent w2).filter (fun p => withinTol p cp 0.15)).map
      (fun p => SRLevel.mk p ["局部低点"] true false)
  let lvls3 := ((denseAreas prices 20).filter (fun p => withinTol p cp 0.15)).map
      (fun p => SRLevel.mk p ["价格密集区"] true true)
  let maLvls := ([(latest.ma5, "MA5均线"), (latest.ma10, "MA10均线"),
      (latest.ma20, "MA20均线"), (latest.ma60, "MA60均线")]).filterMap
      (fun mv => match mv.1 with
        | some v =>
          if withinTol v cp 0.1 then
            some { price := v, sources := [mv.2], sup := decide (v < cp),
                   res := !(decide (v < cp)) }
          else none
        | none => none)
  let bbLvls :=
    match latest.bbUpper, latest.bbLower with
    | some u, some l =>
      (if withinTol u cp 0.1 then [SRLevel.mk u ["布林上轨"] false true] else []) ++
      (if withinTol l cp 0.1 then [SRLevel.mk l ["布林下轨"] true false] else []) ++
      (match latest.bbMiddle with
        | some m =>
          if withinTol m cp 0.1 then
            [{ price := m, sources := ["布林中轨"], sup := decide (m < cp),
               res := !(decide (m < cp)) }]
          else []
        | none => [])
    | _, _ => []
  let allLvls := lvls1 ++ lvls2 ++ lvls3 ++ maLvls ++ bbLvls
  groupLevels (cp * 0.01)
    (List.insertionSort (fun a b : SRLevel => a.price ≤ b.price) allLvls)

/-- The `supports` list: the grouped levels marked support strictly below the current
price, sorted by descending price, truncated to 5. -/
def supportsOf (cp : ℚ) (grouped : List SRLevel) : List SRLevel :=
  (List.insertionSort (fun a b : SRLevel => b.price ≤ a.price)
    (grouped.filter (fun l => l.sup && decide (l.price < cp)))).take 5

/-- The `resistances` list: the grouped levels marked resistance strictly above the
current price, sorted by ascending price, truncated to 5. -/
def resistancesOf (cp : ℚ) (grouped : List SRLevel) : List SRLevel :=
  (List.insertionSort (fun a b : SRLevel => a.price ≤ b.price)
    (grouped.filter (fun l => l.res && decide (cp < l.price)))).take 5

/-- The dictionary `calculate_support_resistance` returns in the non-empty
case. -/
structure SRResult where
  supports : List SRLevel
  resistances : List SRLevel
  currentPrice : ℚ
  allLevels : List SRLevel
deriving DecidableEq

/-- The record built from a sufficiently long series. -/
def srBody (df : List SRRow) (window : ℕ) : SRResult :=
  { supports := supportsOf (srCurrentPrice df) (srGrouped df window),
    resistances := resistancesOf (srCurrentPrice df) (srGrouped df window),
    currentPrice := srCurrentPrice df,
    allLevels := srGrouped df window }

/-- The function `calculate_support_resistance`: the empty dict (`none`) for a missing,
empty or too-short series, otherwise the supports/resistances record. -/
def calculate_support_resistance (df : List SRRow) (window : ℕ) : Option SRResult :=
  if df.isEmpty ∨ df.length < window then none else some (srBody df window)

lemma supportsOf_shape (cp : ℚ) (grouped : List SRLevel) :
    (supportsOf cp grouped).length ≤ 5 ∧
    (∀ l ∈ supportsOf cp grouped, l.price < cp) ∧
    ((supportsOf cp grouped).map SRLevel.price).Sorted (fun a b => b ≤ a) := by
  unfold supportsOf
  refine ⟨?_, ?_, ?_⟩
  · rw [List.length_take]; exact min_le_left _ _
  · intro l hl
    have h1 := List.mem_of_mem_take hl
    have h2 := ((List.perm_insertionSort _ _).mem_iff).mp h1
    have h3 := (List.mem_filter.mp h2).2
    simp only [Bool.and_eq_true, decide_eq_true_eq] at h3
    exact h3.2
  · haveI : IsTotal SRLevel (fun a b : SRLevel => b.price ≤ a.price) :=
      ⟨fun a b => le_total b.price a.price⟩
    haveI : IsTrans SRLevel (fun a b : SRLevel => b.price ≤ a.price) :=
      ⟨fun a b c hab hbc => le_trans hbc hab⟩
    have hs := List.sorted_insertionSort (fun a b : SRLevel => b.price ≤ a.price)
      (grouped.filter (fun l => l.sup && decide (l.price < cp)))
    have hs2 := List.Pairwise.sublist (List.take_sublist 5 _) hs
    exact List.Pairwise.map _ (fun a b h => h) hs2

lemma resistancesOf_shape (cp : ℚ) (grouped : List SRLevel) :
    (resistancesOf cp grouped).length ≤ 5 ∧
    (∀ l ∈ resistancesOf cp grouped, cp < l.price) ∧
    ((resistancesOf cp grouped).map SRLevel.price).Sorted (fun a b => a ≤ b) := by
  unfold resistancesOf
  refine ⟨?_, ?_, ?_⟩
  · rw [List.length_take]; exact min_le_left _ _
  · intro l hl
    have h1 := List.mem_of_mem_take hl
    have h2 := ((List.perm_insertionSort _ _).mem_iff).mp h1
    have h3 := (List.mem_filter.mp h2).2
    simp only [Bool.and_eq_true, decide_eq_true_eq] at h3
    exact h3.2
  · haveI : IsTotal SRLevel (fun a b : SRLevel => a.price ≤ b.price) :=
      ⟨fun a b => le_total a.price b.price⟩
    haveI : IsTrans SRLevel (fun a b : SRLevel => a.price ≤ b.price) :=
      ⟨fun a b c hab hbc => le_trans hab hbc⟩
    have hs := List.sorted_insertionSort (fun a b : SRLevel => a.price ≤ b.price)
      (grouped.filter (fun l => l.res && decide (cp < l.price)))
    have hs2 := List.Pairwise.sublist (List.take_sublist 5 _) hs
    exact List.Pairwise.map _ (fun a b h => h) hs2

/-- C8: whenever the level detector returns a result, it has at most 5
supports, all strictly below the current close and sorted by descending
price, and at most 5 resistances, all strictly above the current close and
sorted by ascending price; a series shorter than the detection window
returns the empty result (`none`), not an error. -/
theorem support_resistance_invariants (df : List SRRow) (window : ℕ) :
    (∀ r : SRResult, calculate_support_resistance df window = some r →
      r.supports.length ≤ 5 ∧ r.resistances.length ≤ 5 ∧
      (∀ l ∈ r.supports, l.price < r.currentPrice) ∧
      (∀ l ∈ r.resistances, r.currentPrice < l.price) ∧
      (r.supports.map SRLevel.price).Sorted (fun a b => b ≤ a) ∧
      (r.resistances.map SRLevel.price).Sorted (fun a b => a ≤ b)) ∧
    (df.length < window → calculate_support_resistance df window = none) := by
  constructor
  · intro r hr
    rw [calculate_support_resistance] at hr
    split_ifs at hr with hcond
    have hre : srBody df window = r := Option.some_inj.mp hr
    subst hre
    obtain ⟨hs1, hs2, hs3⟩ := supportsOf_shape (srCurrentPrice df) (srGrouped df window)
    obtain ⟨hr1, hr2, hr3⟩ := resistancesOf_shape (srCurrentPrice df) (srGrouped df window)
    exact ⟨hs1, hr1, hs2, hr2, hs3, hr3⟩
  · intro hshort
    rw [calculate_support_resistance, if_pos (Or.inr hshort)]

/-- Two demo bars for the C8 witness. -/
def demoDf : List SRRow :=
  [{ high := 10, low := 9, close := 19/2, ma5 := none, ma10 := none,
     ma20 := none, ma60 := none, bbUpper := none, bbLower := none, bbMiddle := none },
   { high := 12, low := 11, close := 23/2, ma5 := some 11, ma10 := none,
     ma20 := none, ma60 := none, bbUpper := none, bbLower := none, bbMiddle := none }]

/-- Witness for C8: the invariants applied to the two-bar series with window
2, and the empty result applied to the same series with window 20. -/
theorem support_resistance_witness :
    ((srBody demoDf 2).supports.length ≤ 5 ∧
      (srBody demoDf 2).resistances.length ≤ 5 ∧
      (∀ l ∈ (srBody demoDf 2).supports, l.price < (srBody demoDf 2).currentPrice) ∧
      (∀ l ∈ (srBody demoDf 2).resistances, (srBody demoDf 2).currentPrice < l.price) ∧
      ((srBody demoDf 2).supports.map SRLevel.price).Sorted (fun a b => b ≤ a) ∧
      ((srBody demoDf 2).resistances.map SRLevel.price).Sorted (fun a b => a ≤ b)) ∧
    calculate_support_resistance demoDf 20 = none := by
  constructor
  · exact (support_resistance_invariants demoDf 2).1 (srBody demoDf 2)
      (by rw [calculate_support_resistance, if_neg (by norm_num [demoDf])])
  · exact (support_resistance_invariants demoDf 20).2 (by norm_num [demoDf])
